import Mathlib

/-!
Verification of the webhook-authentication core of the `afterparty` repository
(`src/hook.rs`). Rust strings are embedded as lists of their UTF-8 bytes
(`List Nat`, each element < 256 for realizable inputs); fallible or panicking
operations return `Option`, with `none` standing for a Rust panic.

The `ring` crate's `hmac`/`digest` primitives and the `hex` crate's
`FromHex`/`ToHex` are external dependencies of the repository; they are
embedded here by their documented semantics (RFC 3174 SHA-1, RFC 2104 HMAC,
and case-insensitive hex decoding), validated against the RFC test vectors.
-/

namespace Afterparty

/-- Modulus for 32-bit words, 2 ^ 32. -/
def w32 : Nat := 4294967296

/-- Rotate-left of a 32-bit word by `n` bits (RFC 3174 circular left shift). -/
def rotl (n x : Nat) : Nat := ((x <<< n) % w32) ||| (x >>> (32 - n))

/-- Big-endian 4-byte encoding of a 32-bit word. -/
def be32 (n : Nat) : List Nat := [n >>> 24 % 256, n >>> 16 % 256, n >>> 8 % 256, n % 256]

/-- Big-endian 8-byte encoding of a 64-bit length field. -/
def be64 (n : Nat) : List Nat :=
  [n >>> 56 % 256, n >>> 48 % 256, n >>> 40 % 256, n >>> 32 % 256,
   n >>> 24 % 256, n >>> 16 % 256, n >>> 8 % 256, n % 256]

/-- RFC 3174 message padding: append `0x80`, zeros to 56 mod 64, then the
bit length as 8 big-endian bytes. -/
def sha1Pad (msg : List Nat) : List Nat :=
  msg ++ [128] ++ List.replicate ((119 - msg.length % 64) % 64) 0 ++ be64 (8 * msg.length)

/-- Group bytes four at a time into big-endian 32-bit words. -/
def toWords : List Nat → List Nat
  | b0 :: b1 :: b2 :: b3 :: rest => (b0 * 16777216 + b1 * 65536 + b2 * 256 + b3) :: toWords rest
  | _ => []

/-- Extend the 16 block words to the 80-word SHA-1 schedule. The accumulator
holds the words most recent first, so `W[t-3]`, `W[t-8]`, `W[t-14]`, `W[t-16]`
are at positions 2, 7, 13, 15; the result is returned in forward order. -/
def sha1Extend : Nat → List Nat → List Nat
  | 0, acc => acc.reverse
  | n + 1, acc =>
    let w := rotl 1 ((((acc.getD 2 0) ^^^ (acc.getD 7 0)) ^^^ (acc.getD 13 0)) ^^^ (acc.getD 15 0))
    sha1Extend n (w :: acc)

/-- The SHA-1 round function `f_t` (Ch, Parity, Maj, Parity). -/
def sha1F (t b c d : Nat) : Nat :=
  if t < 20 then (b &&& c) ||| ((b ^^^ 4294967295) &&& d)
  else if t < 40 then (b ^^^ c) ^^^ d
  else if t < 60 then ((b &&& c) ||| (b &&& d)) ||| (c &&& d)
  else (b ^^^ c) ^^^ d

/-- The SHA-1 round constants `K_t`. -/
def sha1K (t : Nat) : Nat :=
  if t < 20 then 1518500249
  else if t < 40 then 1859775393
  else if t < 60 then 2400959708
  else 3395469782

/-- Run the 80 SHA-1 rounds, consuming the word schedule in order. -/
def sha1Rounds : Nat → Nat × Nat × Nat × Nat × Nat → List Nat → Nat × Nat × Nat × Nat × Nat
  | _, st, [] => st
  | t, (a, b, c, d, e), w :: ws =>
    let temp := (rotl 5 a + sha1F t b c d + e + sha1K t + w) % w32
    sha1Rounds (t + 1) (temp, a, rotl 30 b, c, d) ws

/-- Compress one 64-byte block into the running hash state. -/
def sha1Block (h : Nat × Nat × Nat × Nat × Nat) (block : List Nat) : Nat × Nat × Nat × Nat × Nat :=
  let ws := sha1Extend 64 (toWords block).reverse
  match h, sha1Rounds 0 h ws with
  | (h0, h1, h2, h3, h4), (a, b, c, d, e) =>
    ((h0 + a) % w32, (h1 + b) % w32, (h2 + c) % w32, (h3 + d) % w32, (h4 + e) % w32)

/-- Split a byte list into 64-byte chunks, with an explicit fuel argument so
that the recursion is structural. -/
def chunks64F : Nat → List Nat → List (List Nat)
  | 0, _ => []
  | fuel + 1, l => if l.isEmpty then [] else l.take 64 :: chunks64F fuel (l.drop 64)

/-- The SHA-1 initial hash state. -/
def sha1Init : Nat × Nat × Nat × Nat × Nat :=
  (1732584193, 4023233417, 2562383102, 271733878, 3285377520)

/-- Fold the block compression over the padded message. -/
def sha1Core (msg : List Nat) : Nat × Nat × Nat × Nat × Nat :=
  let padded := sha1Pad msg
  (chunks64F padded.length padded).foldl sha1Block sha1Init

/-- Serialize the final hash state to the 20-byte digest. -/
def sha1Digest (st : Nat × Nat × Nat × Nat × Nat) : List Nat :=
  be32 st.1 ++ be32 st.2.1 ++ be32 st.2.2.1 ++ be32 st.2.2.2.1 ++ be32 st.2.2.2.2

/-- SHA-1 of a byte sequence (RFC 3174), the hash used by `ring::digest::SHA1`
in `src/hook.rs`. Validated against the RFC test vectors. -/
def sha1 (msg : List Nat) : List Nat := sha1Digest (sha1Core msg)

/-- RFC 2104 HMAC key normalization for a 64-byte block size: keys longer than
64 bytes are hashed first, then the key is zero-padded to 64 bytes. This is
what `ring::hmac::SigningKey::new(&digest::SHA1, ..)` does to the secret. -/
def hmacKeyNorm (key : List Nat) : List Nat :=
  let k := if 64 < key.length then sha1 key else key
  k ++ List.replicate (64 - k.length) 0

/-- HMAC-SHA1 (RFC 2104): `H((K ^ opad) || H((K ^ ipad) || msg))`, the digest
computed by `ring::hmac::sign` / recomputed inside `verify_with_own_key`. -/
def hmacSha1 (key msg : List Nat) : List Nat :=
  let k := hmacKeyNorm key
  sha1 ((k.map (fun b => b ^^^ 92)) ++ sha1 ((k.map (fun b => b ^^^ 54)) ++ msg))

/-- Value of one hex digit, as decoded by the `hex` crate's `FromHex` used in
`src/hook.rs` (`Vec::from_hex`): digits, lowercase and uppercase letters are
all accepted. -/
def hexDigitVal (c : Nat) : Option Nat :=
  if 48 ≤ c ∧ c ≤ 57 then some (c - 48)
  else if 97 ≤ c ∧ c ≤ 102 then some (c - 87)
  else if 65 ≤ c ∧ c ≤ 70 then some (c - 55)
  else none

/-- Hex-decode a byte string to raw bytes, as the `hex` crate's
`Vec::from_hex` does: fails on odd length or on any non-hex character. -/
def hexDecode : List Nat → Option (List Nat)
  | [] => some []
  | [_] => none
  | c1 :: c2 :: rest =>
    match hexDigitVal c1, hexDigitVal c2, hexDecode rest with
    | some hi, some lo, some bs => some ((16 * hi + lo) :: bs)
    | _, _, _ => none

/-- Lowercase hex digit for a nibble, as the `hex` crate's `ToHex` emits. -/
def hexDigitLower (n : Nat) : Nat := if n < 10 then 48 + n else 87 + n

/-- Uppercase hex digit for a nibble. -/
def hexDigitUpper (n : Nat) : Nat := if n < 10 then 48 + n else 55 + n

/-- Lowercase hex encoding of a byte list (the `hex` crate's `write_hex`,
used by the repository's test to build the expected signature). -/
def hexEncode (bs : List Nat) : List Nat :=
  bs.flatMap fun b => [hexDigitLower (b / 16 % 16), hexDigitLower (b % 16)]

/-- Uppercase hex encoding of a byte list. -/
def hexEncodeUpper (bs : List Nat) : List Nat :=
  bs.flatMap fun b => [hexDigitUpper (b / 16 % 16), hexDigitUpper (b % 16)]

/-- The UTF-8 bytes of the string literal `"sha1="`. -/
def sha1Tag : List Nat := [115, 104, 97, 49, 61]

/-- Modelled from the spec: the `Delivery` structure is declared outside
`src/` (in the crate root); per §3 of the spec it carries the exact received
payload text and an optional signature header string. Only the two fields read
by `src/hook.rs` are embedded. -/
structure Delivery where
  unparsed_payload : List Nat
  signature : Option (List Nat)
deriving DecidableEq

/-- The authenticating decorator of `src/hook.rs`: a secret plus a wrapped
inner hook of arbitrary type `H`. -/
structure AuthenticateHook (H : Type) where
  secret : List Nat
  hook : H
deriving DecidableEq

/-- `AuthenticateHook::new` from `src/hook.rs`. -/
def AuthenticateHook.new {H : Type} (secret : List Nat) (hook : H) : AuthenticateHook H :=
  { secret := secret, hook := hook }

/-- The field-wise copy produced by `#[derive(Clone)]` on `AuthenticateHook`
(`String::clone` is a value copy; the inner hook is a value copy per §4.1 of
the spec, which expects handlers to be side-effect-free data plus a callable). -/
def AuthenticateHook.clone {H : Type} (self : AuthenticateHook H) : AuthenticateHook H :=
  { secret := self.secret, hook := self.hook }

/-- Rust `&s[i..s.len()]` on a `str`, byte-indexed: returns the bytes from
position `i`, and panics (`none`) when `i` is out of bounds or `i` falls
inside a multi-byte UTF-8 character (the byte at `i` is a continuation byte
`0x80..0xBF`). This is the slicing `signature[5..signature.len()]` performs
in `AuthenticateHook::authenticate`. -/
def strSliceFrom (s : List Nat) (i : Nat) : Option (List Nat) :=
  if i ≤ s.length ∧ (i = s.length ∨ ¬ (128 ≤ s.getD i 0 ∧ s.getD i 0 < 192)) then
    some (s.drop i)
  else
    none

/-- `AuthenticateHook::authenticate` from `src/hook.rs`: slice off the first
five signature bytes, hex-decode the remainder, and on success compare the
HMAC-SHA1 of the payload under the secret against the decoded bytes
(`hmac::verify_with_own_key(..).is_ok()`). `none` models a panic of the
byte slicing; hex-decode failure yields `some false`. -/
def AuthenticateHook.authenticate {H : Type} (self : AuthenticateHook H)
    (payload sig : List Nat) : Option Bool :=
  match strSliceFrom sig 5 with
  | none => none
  | some sansTag =>
    match hexDecode sansTag with
    | some sigbytes => some (hmacSha1 self.secret payload == sigbytes)
    | none => some false

/-- `Hook::handle` for `AuthenticateHook` from `src/hook.rs`. The result is
`none` for a panic, otherwise `some (self, fwd)` where `self` is the decorator
after the call (taken by `&self`, hence returned unchanged) and `fwd` is the
list of deliveries passed on to the inner hook: `[d]` when authentication
succeeds, `[]` when the signature is absent or authentication fails (the
failure branch only logs an error-level diagnostic). -/
def AuthenticateHook.handle {H : Type} (self : AuthenticateHook H) (d : Delivery) :
    Option (AuthenticateHook H × List Delivery) :=
  match d.signature with
  | some sig =>
    match self.authenticate d.unparsed_payload sig with
    | none => none
    | some true => some (self, [d])
    | some false => some (self, [])
  | none => some (self, [])

/-! ### Helper lemmas -/

/-- Every byte of a big-endian word encoding is below 256. -/
theorem be32_lt (n : Nat) : ∀ b ∈ be32 n, b < 256 := by
  intro b hb
  simp [be32] at hb
  omega

/-- The SHA-1 digest always has exactly 20 bytes. -/
theorem sha1_length (msg : List Nat) : (sha1 msg).length = 20 := by
  unfold sha1 sha1Digest
  simp [be32]

/-- Every byte of a SHA-1 digest is below 256. -/
theorem sha1_lt (msg : List Nat) : ∀ b ∈ sha1 msg, b < 256 := by
  unfold sha1 sha1Digest
  intro b hb
  simp [be32] at hb
  omega

/-- The HMAC-SHA1 digest always has exactly 20 bytes. -/
theorem hmacSha1_length (key msg : List Nat) : (hmacSha1 key msg).length = 20 :=
  sha1_length _

/-- Every byte of an HMAC-SHA1 digest is below 256. -/
theorem hmacSha1_lt (key msg : List Nat) : ∀ b ∈ hmacSha1 key msg, b < 256 :=
  sha1_lt _

/-- Decoding a lowercase hex digit recovers the nibble. -/
theorem hexDigitVal_lower : ∀ n < 16, hexDigitVal (hexDigitLower n) = some n := by decide

/-- Decoding an uppercase hex digit recovers the nibble. -/
theorem hexDigitVal_upper : ∀ n < 16, hexDigitVal (hexDigitUpper n) = some n := by decide

/-- Lowercase hex digits are ASCII (below 128). -/
theorem hexDigitLower_lt_128 : ∀ n < 16, hexDigitLower n < 128 := by decide

/-- Uppercase hex digits are ASCII (below 128). -/
theorem hexDigitUpper_lt_128 : ∀ n < 16, hexDigitUpper n < 128 := by decide

/-- Hex-decoding undoes encoding, for any digit alphabet whose digits decode
back to their nibble. -/
theorem hexDecode_encodeWith (f : Nat → Nat) (hf : ∀ n < 16, hexDigitVal (f n) = some n) :
    ∀ bs : List Nat, (∀ b ∈ bs, b < 256) →
      hexDecode (bs.flatMap fun b => [f (b / 16 % 16), f (b % 16)]) = some bs
  | [], _ => rfl
  | b :: bs, h => by
    have hb : b < 256 := h b (List.mem_cons_self b bs)
    have ih := hexDecode_encodeWith f hf bs (fun x hx => h x (List.mem_cons_of_mem _ hx))
    simp only [List.flatMap_cons, List.cons_append, List.nil_append]
    simp only [hexDecode, hf (b / 16 % 16) (by omega), hf (b % 16) (by omega), ih]
    have hrec : 16 * (b / 16 % 16) + b % 16 = b := by omega
    rw [hrec]

/-- Hex-decoding a lowercase hex encoding of bytes recovers the bytes. -/
theorem hexDecode_hexEncode (bs : List Nat) (h : ∀ b ∈ bs, b < 256) :
    hexDecode (hexEncode bs) = some bs :=
  hexDecode_encodeWith hexDigitLower hexDigitVal_lower bs h

/-- Hex-decoding an uppercase hex encoding of bytes recovers the bytes. -/
theorem hexDecode_hexEncodeUpper (bs : List Nat) (h : ∀ b ∈ bs, b < 256) :
    hexDecode (hexEncodeUpper bs) = some bs :=
  hexDecode_encodeWith hexDigitUpper hexDigitVal_upper bs h

/-- A hex encoding is empty or starts with an ASCII byte, for any ASCII digit
alphabet. -/
theorem encodeWith_head_lt (f : Nat → Nat) (hf : ∀ n < 16, f n < 128) (bs : List Nat) :
    (bs.flatMap fun b => [f (b / 16 % 16), f (b % 16)]) = [] ∨
      (bs.flatMap fun b => [f (b / 16 % 16), f (b % 16)]).getD 0 0 < 128 := by
  cases bs with
  | nil => left; rfl
  | cons b tl =>
    right
    simp only [List.flatMap_cons, List.cons_append, List.getD_cons_zero]
    exact hf _ (by omega)

/-- Slicing off a five-byte block from a signature that starts with one
succeeds whenever the remainder is empty or starts with an ASCII byte. -/
theorem strSliceFrom_append5 (pre rest : List Nat) (hpre : pre.length = 5)
    (hb : rest = [] ∨ rest.getD 0 0 < 128) :
    strSliceFrom (pre ++ rest) 5 = some rest := by
  unfold strSliceFrom
  have hlen : (pre ++ rest).length = 5 + rest.length := by simp [hpre]
  rw [if_pos]
  · rw [show (5 : Nat) = pre.length from hpre.symm, List.drop_left]
  · refine ⟨by omega, ?_⟩
    rcases hb with h | h
    · left
      subst h
      simp only [List.append_nil]
      omega
    · right
      rw [List.getD_append_right pre rest 0 5 (by omega), hpre]
      simp only [Nat.sub_self]
      intro hcon
      omega

/-- Evaluation of `authenticate` on a signature made of any five-byte tag
followed by a string that decodes to `digest`. -/
theorem authenticate_of_decode {H : Type} (hk : H) (S P pre rest digest : List Nat)
    (hpre : pre.length = 5) (hb : rest = [] ∨ rest.getD 0 0 < 128)
    (hdec : hexDecode rest = some digest) :
    (AuthenticateHook.new S hk).authenticate P (pre ++ rest) =
      some (hmacSha1 S P == digest) := by
  unfold AuthenticateHook.authenticate
  rw [strSliceFrom_append5 pre rest hpre hb]
  simp only [hdec]
  rfl

/-- Evaluation of `handle` on a delivery that carries a signature. -/
theorem handle_some_sig {H : Type} (self : AuthenticateHook H) (P sig : List Nat) :
    self.handle ⟨P, some sig⟩ =
      match self.authenticate P sig with
      | none => none
      | some true => some (self, [⟨P, some sig⟩])
      | some false => some (self, []) := rfl

/-! ### Claim theorems -/

/-- C1: for every payload `P` and secret `S`, a delivery whose signature is
`"sha1="` followed by the lowercase hex encoding of HMAC-SHA1(S, P)
authenticates successfully against a decorator built with secret `S`, and
`handle` forwards the delivery unchanged to the inner handler. -/
theorem C1_valid_signature_authenticates_and_forwards {H : Type} (hk : H) (S P : List Nat) :
    (AuthenticateHook.new S hk).authenticate P (sha1Tag ++ hexEncode (hmacSha1 S P)) =
      some true ∧
    (AuthenticateHook.new S hk).handle ⟨P, some (sha1Tag ++ hexEncode (hmacSha1 S P))⟩ =
      some (AuthenticateHook.new S hk, [⟨P, some (sha1Tag ++ hexEncode (hmacSha1 S P))⟩]) := by
  have hb := encodeWith_head_lt hexDigitLower hexDigitLower_lt_128 (hmacSha1 S P)
  have hauth := authenticate_of_decode hk S P sha1Tag (hexEncode (hmacSha1 S P))
      (hmacSha1 S P) rfl hb (hexDecode_hexEncode _ (hmacSha1_lt S P))
  rw [beq_self_eq_true] at hauth
  exact ⟨hauth, by rw [handle_some_sig, hauth]⟩

/-- C2 (failing input for the code bug): the spec promises that a malformed
delivery can never crash the service, but for a signature shorter than five
bytes (here the empty string) the byte slicing `signature[5..signature.len()]`
in `authenticate` panics, modelled as `handle` returning `none`. -/
theorem C2_short_signature_panics :
    ([] : List Nat).length < 5 ∧
    (AuthenticateHook.new [115, 101, 99, 114, 101, 116] ()).handle
        ⟨[123, 125], some []⟩ = none :=
  ⟨by decide, rfl⟩

/-- C3: a delivery with no signature is never forwarded to the inner handler:
`handle` terminates normally having forwarded nothing. -/
theorem C3_missing_signature_never_forwarded {H : Type} (hk : H) (S P : List Nat) :
    (AuthenticateHook.new S hk).handle ⟨P, none⟩ = some (AuthenticateHook.new S hk, []) :=
  rfl

/-- C4 (failing input for the code bug): the signature `"sha1éz!"` (bytes
`[115, 104, 97, 49, 195, 169, 122, 33]`) has a hex portion that fails to
decode under either a character or a byte reading, so the claim requires
`authenticate` to return `false`; instead byte index 5 falls inside the
two-byte character `é`, the slicing panics, and `handle` panics with it. -/
theorem C4_malformed_signature_panics :
    hexDecode (([115, 104, 97, 49, 195, 169, 122, 33] : List Nat).drop 5) = none ∧
    (AuthenticateHook.new [115, 101, 99, 114, 101, 116] ()).authenticate [123, 125]
        [115, 104, 97, 49, 195, 169, 122, 33] = none ∧
    (AuthenticateHook.new [115, 101, 99, 114, 101, 116] ()).handle
        ⟨[123, 125], some [115, 104, 97, 49, 195, 169, 122, 33]⟩ = none :=
  ⟨rfl, rfl, rfl⟩

/-- C5 counterexample: the secrets `"a"` (`[97]`) and `"a\x00"` (`[97, 0]`)
are distinct, yet HMAC key normalization zero-pads both to the same 64-byte
key, so a signature computed with the first secret authenticates against a
decorator built with the second and the delivery IS forwarded. -/
theorem C5_counterexample_trailing_zero_secret :
    ([97] : List Nat) ≠ [97, 0] ∧
    (AuthenticateHook.new [97, 0] ()).handle
        ⟨[123, 125], some (sha1Tag ++ hexEncode (hmacSha1 [97] [123, 125]))⟩ =
      some (AuthenticateHook.new [97, 0] (),
        [⟨[123, 125], some (sha1Tag ++ hexEncode (hmacSha1 [97] [123, 125]))⟩]) := by
  refine ⟨by decide, ?_⟩
  have hkey : hmacSha1 [97] [123, 125] = hmacSha1 [97, 0] [123, 125] := by
    unfold hmacSha1
    rw [show hmacKeyNorm [97] = hmacKeyNorm [97, 0] from by decide]
  have hb := encodeWith_head_lt hexDigitLower hexDigitLower_lt_128 (hmacSha1 [97] [123, 125])
  have hauth := authenticate_of_decode () [97, 0] [123, 125] sha1Tag
      (hexEncode (hmacSha1 [97] [123, 125])) (hmacSha1 [97] [123, 125]) rfl hb
      (hexDecode_hexEncode _ (hmacSha1_lt _ _))
  rw [← hkey, beq_self_eq_true] at hauth
  rw [handle_some_sig, hauth]

/-- C5 amended: a signature computed with secret `S1` fails authentication
against a decorator built with secret `S2` exactly when the two HMAC-SHA1
digests of the payload differ; mere distinctness of the secrets does not
suffice (see the counterexample with a trailing zero byte). -/
theorem C5_amended_fails_when_digests_differ {H : Type} (hk : H) (S1 S2 P : List Nat)
    (hne : hmacSha1 S1 P ≠ hmacSha1 S2 P) :
    (AuthenticateHook.new S2 hk).authenticate P (sha1Tag ++ hexEncode (hmacSha1 S1 P)) =
      some false ∧
    (AuthenticateHook.new S2 hk).handle ⟨P, some (sha1Tag ++ hexEncode (hmacSha1 S1 P))⟩ =
      some (AuthenticateHook.new S2 hk, []) := by
  have hb := encodeWith_head_lt hexDigitLower hexDigitLower_lt_128 (hmacSha1 S1 P)
  have hauth := authenticate_of_decode hk S2 P sha1Tag (hexEncode (hmacSha1 S1 P))
      (hmacSha1 S1 P) rfl hb (hexDecode_hexEncode _ (hmacSha1_lt _ _))
  rw [beq_eq_false_iff_ne.mpr (Ne.symm hne)] at hauth
  exact ⟨hauth, by rw [handle_some_sig, hauth]⟩

set_option maxRecDepth 1000000 in
/-- Witness for the amended C5 at the concrete secrets `"a"` and `"b"` and the
empty payload, whose digests indeed differ. -/
theorem C5_amended_fails_when_digests_differ_witness :
    hmacSha1 [97] [] ≠ hmacSha1 [98] [] ∧
    ((AuthenticateHook.new [98] ()).authenticate [] (sha1Tag ++ hexEncode (hmacSha1 [97] [])) =
        some false ∧
      (AuthenticateHook.new [98] ()).handle ⟨[], some (sha1Tag ++ hexEncode (hmacSha1 [97] []))⟩ =
        some (AuthenticateHook.new [98] (), [])) := by
  have hne : hmacSha1 [97] [] ≠ hmacSha1 [98] [] := by decide
  exact ⟨hne, C5_amended_fails_when_digests_differ () [97] [98] [] hne⟩

/-- C6 counterexample: the code never compares the stripped five characters
against `"sha1="`. With the tag `"nope="` (`[110, 111, 112, 101, 61]`) in
place of `"sha1="` and an otherwise correct lowercase digest, authentication
succeeds and the delivery is forwarded, contradicting the claim that any
other format is rejected. -/
theorem C6_counterexample_foreign_tag_accepted :
    ([110, 111, 112, 101, 61] : List Nat) ≠ sha1Tag ∧
    (AuthenticateHook.new [115, 101, 99, 114, 101, 116] ()).handle
        ⟨[123, 125], some ([110, 111, 112, 101, 61] ++
          hexEncode (hmacSha1 [115, 101, 99, 114, 101, 116] [123, 125]))⟩ =
      some (AuthenticateHook.new [115, 101, 99, 114, 101, 116] (),
        [⟨[123, 125], some ([110, 111, 112, 101, 61] ++
          hexEncode (hmacSha1 [115, 101, 99, 114, 101, 116] [123, 125]))⟩]) := by
  refine ⟨by decide, ?_⟩
  have hb := encodeWith_head_lt hexDigitLower hexDigitLower_lt_128
      (hmacSha1 [115, 101, 99, 114, 101, 116] [123, 125])
  have hauth := authenticate_of_decode () [115, 101, 99, 114, 101, 116] [123, 125]
      [110, 111, 112, 101, 61] (hexEncode (hmacSha1 [115, 101, 99, 114, 101, 116] [123, 125]))
      (hmacSha1 [115, 101, 99, 114, 101, 116] [123, 125]) rfl hb
      (hexDecode_hexEncode _ (hmacSha1_lt _ _))
  rw [beq_self_eq_true] at hauth
  rw [handle_some_sig, hauth]

/-- C6 amended: the first five signature bytes are stripped without being
compared to `"sha1="`, so ANY five-byte tag followed by a hex encoding of the
correct digest — lowercase or uppercase, since the hex decoder accepts both —
authenticates successfully; rejection happens only on hex-decode failure or
digest mismatch. -/
theorem C6_amended_tag_unchecked_and_case_insensitive {H : Type} (hk : H)
    (S P pre : List Nat) (hpre : pre.length = 5) :
    (AuthenticateHook.new S hk).authenticate P (pre ++ hexEncode (hmacSha1 S P)) =
      some true ∧
    (AuthenticateHook.new S hk).authenticate P (pre ++ hexEncodeUpper (hmacSha1 S P)) =
      some true := by
  have hbl := encodeWith_head_lt hexDigitLower hexDigitLower_lt_128 (hmacSha1 S P)
  have hbu := encodeWith_head_lt hexDigitUpper hexDigitUpper_lt_128 (hmacSha1 S P)
  have hl := authenticate_of_decode hk S P pre (hexEncode (hmacSha1 S P)) (hmacSha1 S P)
      hpre hbl (hexDecode_hexEncode _ (hmacSha1_lt S P))
  have hu := authenticate_of_decode hk S P pre (hexEncodeUpper (hmacSha1 S P)) (hmacSha1 S P)
      hpre hbu (hexDecode_hexEncodeUpper _ (hmacSha1_lt S P))
  rw [beq_self_eq_true] at hl hu
  exact ⟨hl, hu⟩

/-- Witness for the amended C6 at the concrete tag `"nope="`, empty secret and
empty payload. -/
theorem C6_amended_tag_unchecked_and_case_insensitive_witness :
    ([110, 111, 112, 101, 61] : List Nat).length = 5 ∧
    ((AuthenticateHook.new [] ()).authenticate []
        ([110, 111, 112, 101, 61] ++ hexEncode (hmacSha1 [] [])) = some true ∧
      (AuthenticateHook.new [] ()).authenticate []
        ([110, 111, 112, 101, 61] ++ hexEncodeUpper (hmacSha1 [] [])) = some true) :=
  ⟨by decide,
    C6_amended_tag_unchecked_and_case_insensitive () [] [] [110, 111, 112, 101, 61] (by decide)⟩

/-- C7: `handle` never changes the decorator: whenever it terminates normally,
the decorator it hands back has the same secret and the same inner hook it
started with. -/
theorem C7_handle_preserves_decorator {H : Type} (h : AuthenticateHook H) (d : Delivery)
    (res : AuthenticateHook H × List Delivery) (hres : h.handle d = some res) :
    res.1.secret = h.secret ∧ res.1.hook = h.hook := by
  unfold AuthenticateHook.handle at hres
  split at hres
  · split at hres
    · simp at hres
    · injection hres with hres
      rw [← hres]
      exact ⟨rfl, rfl⟩
    · injection hres with hres
      rw [← hres]
      exact ⟨rfl, rfl⟩
  · injection hres with hres
    rw [← hres]
    exact ⟨rfl, rfl⟩

/-- Witness for C7 at a concrete decorator and an unsigned delivery. -/
theorem C7_handle_preserves_decorator_witness :
    (AuthenticateHook.new ([97] : List Nat) (), ([] : List Delivery)).1.secret =
      (AuthenticateHook.new ([97] : List Nat) ()).secret ∧
    (AuthenticateHook.new ([97] : List Nat) (), ([] : List Delivery)).1.hook =
      (AuthenticateHook.new ([97] : List Nat) ()).hook :=
  C7_handle_preserves_decorator (AuthenticateHook.new [97] ()) ⟨[], none⟩
    (AuthenticateHook.new [97] (), []) rfl

/-- C9: the field-wise clone of a decorator is behaviorally identical: it
returns the same `authenticate` verdict on every payload and signature, and
`handle` behaves identically on every delivery (it also is equal as a value,
being a shallow copy). -/
theorem C9_clone_behaviorally_identical {H : Type} (D : AuthenticateHook H)
    (P G : List Nat) (d : Delivery) :
    D.clone.authenticate P G = D.authenticate P G ∧
    D.clone.handle d = D.handle d ∧
    D.clone = D :=
  ⟨rfl, rfl, rfl⟩

/-- C10: a signature that is exactly `"sha1="` does not panic: the empty hex
portion decodes to the empty byte vector, which cannot equal the 20-byte
HMAC-SHA1 digest, so authentication fails and nothing is forwarded. -/
theorem C10_bare_tag_signature_rejected {H : Type} (hk : H) (S P : List Nat) :
    hexDecode [] = some [] ∧
    (AuthenticateHook.new S hk).authenticate P sha1Tag = some false ∧
    (AuthenticateHook.new S hk).handle ⟨P, some sha1Tag⟩ =
      some (AuthenticateHook.new S hk, []) := by
  have hne : hmacSha1 S P ≠ [] := by
    intro hcon
    have hlen := hmacSha1_length S P
    rw [hcon] at hlen
    simp at hlen
  have h0 := authenticate_of_decode hk S P sha1Tag [] [] rfl (Or.inl rfl) rfl
  rw [List.append_nil] at h0
  rw [beq_eq_false_iff_ne.mpr hne] at h0
  exact ⟨rfl, h0, by rw [handle_some_sig, h0]⟩

end Afterparty
